import Mathlib

/-!
Shallow embedding of the streaming code-fence scanner in `src/app/api/chat.py`.

The scanner state is the pair of the mutable character deque `buffer` and the
`state` dict with keys `code_block_open` and `has_found_code`; both are bundled
into `ScanState` here.  Python string slicing on the candidate window is
rendered with `List.take` / `List.drop`, and `str.find` (which returns the
lowest match index or -1) is rendered as `strFind`, returning `Option Nat`.
The driving generator `generate_stream_response` is embedded as a pure
function of the upstream fragment list together with how the upstream ends
(normal completion, or an exception after some number of fragments).
-/

namespace ChatApi

/-- Characters of a string literal; the embedding works over lists of characters. -/
def chars (s : String) : List Char := s.data

/-- The events the endpoint emits (the pydantic chunk models of
`src/app/api/chat.py`, restricted to the fields the stream logic sets:
`usage` is always `None` there and is omitted). -/
inductive Event where
  | start : Event
  | token : List Char → Nat → Event
  | code_start : String → Event
  | code_end : Event
  | error : String → String → Event
  | done : String → Event
deriving DecidableEq, Repr

/-- True for the terminal `done` event. -/
def Event.isDone : Event → Bool
  | .done _ => true
  | _ => false

/-- True for the terminal `error` event. -/
def Event.isError : Event → Bool
  | .error _ _ => true
  | _ => false

/-- True for the two fence-boundary events. -/
def Event.isBoundary : Event → Bool
  | .code_start _ => true
  | .code_end => true
  | _ => false

/-- True for a `code_start` event. -/
def Event.isCodeStart : Event → Bool
  | .code_start _ => true
  | _ => false

/-- True for the events the scanner itself may emit for a fragment
(plain-text token or a fence boundary). -/
def Event.isStream : Event → Bool
  | .token _ _ => true
  | .code_start _ => true
  | .code_end => true
  | _ => false

/-- The per-stream scanner state: the `buffer` deque plus the `state` dict of
`generate_stream_response` (`code_block_open`, `has_found_code`). -/
structure ScanState where
  buffer : List Char
  code_block_open : Bool
  has_found_code : Bool
deriving DecidableEq, Repr

/-- The state built at lines 153-157 of `src/app/api/chat.py`: empty deque,
both flags false. -/
def initialState : ScanState :=
  { buffer := [], code_block_open := false, has_found_code := false }

/-- Python `content.find(identifier)`: the lowest index at which `pat` occurs
as a contiguous substring of `s`, or `none` when there is no occurrence. -/
def strFind (pat : List Char) : List Char → Option Nat
  | [] => if pat.isPrefixOf ([] : List Char) then some 0 else none
  | c :: rest =>
      if pat.isPrefixOf (c :: rest) then some 0
      else (strFind pat rest).map (· + 1)

/-- `CODE_START_IDENTIFIER_SIZE` (line 92 of the source). -/
def CODE_START_IDENTIFIER_SIZE : Nat := 11

/-- `CODE_END_IDENTIFIER_SIZE` (line 93 of the source). -/
def CODE_END_IDENTIFIER_SIZE : Nat := 4

/-- The open-marker literal passed to the scanner at line 133: three
backticks, the language name, a newline. -/
def codeStartIdentifier : List Char := chars "```python\n"

/-- The close-marker literal passed to the scanner at line 130: three
backticks and a newline. -/
def codeEndIdentifier : List Char := chars "```\n"

/-- `_handle_buffer_content` (lines 95-118).  `content` is the joined buffer;
the input `st` is the state as it stands when the function is entered, i.e.
with `st.buffer` already equal to `content`.  Returns the yielded events and
the updated state.  Python negative-slice arithmetic: with
`identifier_size ≤ content.length`, `content[:-(identifier_size-1)]` is
`take (length - (identifier_size - 1))` and `content[-(identifier_size-1):]`
is `drop (length - (identifier_size - 1))`; `content[idx+identifier_size:]`
is `drop (idx + identifier_size)` (empty when the start is past the end,
matching the guarded append loop at lines 111-113). -/
def handle_buffer_content (content : List Char) (index : Nat) (st : ScanState)
    (identifier : List Char) (identifier_size : Nat) (is_start : Bool) :
    List Event × ScanState :=
  if content.length < identifier_size then
    ([], st)
  else
    match strFind identifier content with
    | some idx =>
        if is_start then
          ([Event.token (content.take idx) index, Event.code_start "python"],
           { st with code_block_open := true,
                     buffer := content.drop (idx + identifier_size) })
        else
          ([Event.token (content.take idx) index, Event.code_end],
           { st with code_block_open := false,
                     has_found_code := true,
                     buffer := content.drop (idx + identifier_size) })
    | none =>
        ([Event.token (content.take (content.length - (identifier_size - 1))) index],
         { st with buffer := content.drop (content.length - (identifier_size - 1)) })

/-- `process_token` (lines 120-136): the terminal fast path when
`has_found_code` is set, otherwise append the fragment to the buffer and scan
the joined window for the marker that is active for the current
`code_block_open` flag. -/
def process_token (tok : List Char) (index : Nat) (st : ScanState) :
    List Event × ScanState :=
  if st.has_found_code then
    ([Event.token tok index], st)
  else
    let recent_str := st.buffer ++ tok
    let st1 : ScanState := { st with buffer := recent_str }
    if st.code_block_open then
      handle_buffer_content recent_str index st1
        codeEndIdentifier CODE_END_IDENTIFIER_SIZE false
    else
      handle_buffer_content recent_str index st1
        codeStartIdentifier CODE_START_IDENTIFIER_SIZE true

/-- The fragment loop of `generate_stream_response` (lines 158-169): feed each
non-empty upstream content string to `process_token`, incrementing `index`
once per fragment, collecting every yielded event. -/
def runFragments : List (List Char) → Nat → ScanState → List Event × ScanState
  | [], _, st => ([], st)
  | f :: fs, index, st =>
      let r := process_token f index st
      let rest := runFragments fs (index + 1) r.2
      (r.1 ++ rest.1, rest.2)

/-- A message of the request body (`Message`, lines 24-26). -/
structure Message where
  role : String
  content : String
deriving DecidableEq, Repr

/-- The request body (`ChatRequest`, lines 28-30): the `language` field
defaults to "python" and is never read by the streaming code. -/
structure ChatRequest where
  messages : List Message
  language : Option String := some "python"
deriving DecidableEq, Repr

/-- How the upstream model stream ends: normal exhaustion of the async
iterator, or an exception raised after some number of fragments were
delivered and processed. -/
inductive StreamOutcome where
  | completes : StreamOutcome
  | raisesAfter : Nat → String → StreamOutcome
deriving DecidableEq, Repr

/-- `generate_stream_response` (lines 145-175) as a function of the request,
the non-empty content fragments the upstream client yields, and how the
upstream ends.  The body of the Python generator reads `request.messages`
only to build the upstream call whose output is the `fragments` parameter
here, and never reads `request.language`.  On normal completion a single
`done("stop")` follows the scanned events; when the upstream raises after
`k` fragments, the events of the first `k` fragments are followed by a
single `error` event with code "internal_error" (the default of
`send_error`, line 88) and no `done`. -/
def generate_stream_response (request : ChatRequest)
    (fragments : List (List Char)) (outcome : StreamOutcome) : List Event :=
  match outcome with
  | .completes =>
      Event.start :: (runFragments fragments 0 initialState).1 ++ [Event.done "stop"]
  | .raisesAfter k msg =>
      Event.start :: (runFragments (fragments.take k) 0 initialState).1
        ++ [Event.error msg "internal_error"]

/-- The events of processing a fragment list on the terminal fast path: one
verbatim token per fragment, indices increasing from `index`. -/
def verbatimTokens : List (List Char) → Nat → List Event
  | [], _ => []
  | f :: fs, index => Event.token f index :: verbatimTokens fs (index + 1)

/-- The marker `process_token` searches for in the current state: the close
marker inside a code block, the open marker otherwise (lines 129-134). -/
def activeIdentifier (st : ScanState) : List Char :=
  if st.code_block_open then codeEndIdentifier else codeStartIdentifier

/-- The size constant `process_token` passes along with the active marker. -/
def activeSize (st : ScanState) : Nat :=
  if st.code_block_open then CODE_END_IDENTIFIER_SIZE else CODE_START_IDENTIFIER_SIZE

/-- The boundary event the scanner emits when the active marker is found. -/
def activeBoundary (st : ScanState) : Event :=
  if st.code_block_open then Event.code_end else Event.code_start "python"

example : strFind (chars "```python\n") (chars "a```python\nb") = some 1 := by decide

example :
    (process_token (chars "Here is ```python") 0 initialState).1 =
      [Event.token (chars "Here is") 0] := by decide

/-- Every event `_handle_buffer_content` yields is a token or a fence
boundary. -/
theorem handle_stream (content : List Char) (index : Nat) (st : ScanState)
    (identifier : List Char) (n : Nat) (b : Bool) :
    ∀ e ∈ (handle_buffer_content content index st identifier n b).1,
      e.isStream = true := by
  intro e he
  unfold handle_buffer_content at he
  split at he
  · simp at he
  · split at he
    · split at he
      · simp at he
        rcases he with rfl | rfl <;> rfl
      · simp at he
        rcases he with rfl | rfl <;> rfl
    · simp at he
      subst he
      rfl

/-- Every event `process_token` yields is a token or a fence boundary. -/
theorem process_stream (tok : List Char) (index : Nat) (st : ScanState) :
    ∀ e ∈ (process_token tok index st).1, e.isStream = true := by
  intro e he
  unfold process_token at he
  split at he
  · simp at he
    subst he
    rfl
  · split at he
    · exact handle_stream _ _ _ _ _ _ e he
    · exact handle_stream _ _ _ _ _ _ e he

/-- Every event the fragment loop yields is a token or a fence boundary. -/
theorem runFragments_stream (fragments : List (List Char)) (index : Nat)
    (st : ScanState) :
    ∀ e ∈ (runFragments fragments index st).1, e.isStream = true := by
  induction fragments generalizing index st with
  | nil =>
      intro e he
      simp [runFragments] at he
  | cons f fs ih =>
      intro e he
      simp only [runFragments, List.mem_append] at he
      rcases he with he | he
      · exact process_stream f index st e he
      · exact ih _ _ e he

/-- A token or boundary event is not `done`. -/
theorem stream_not_done {e : Event} (h : e.isStream = true) : e.isDone = false := by
  cases e <;> simp_all [Event.isStream, Event.isDone]

/-- A token or boundary event is not `error`. -/
theorem stream_not_error {e : Event} (h : e.isStream = true) : e.isError = false := by
  cases e <;> simp_all [Event.isStream, Event.isError]

/-- C6: for every stream whose upstream eventually completes or raises,
exactly one of `done` and `error` is emitted — on normal completion one
`done` and no `error`, and on an exception one `error` event (code
"internal_error") as the final event, with no `done` anywhere. -/
theorem terminal_event_cardinality (request : ChatRequest)
    (fragments : List (List Char)) (k : Nat) (msg : String) :
    ((generate_stream_response request fragments .completes).filter
        Event.isDone).length = 1 ∧
    ((generate_stream_response request fragments .completes).filter
        Event.isError).length = 0 ∧
    ((generate_stream_response request fragments (.raisesAfter k msg)).filter
        Event.isDone).length = 0 ∧
    ((generate_stream_response request fragments (.raisesAfter k msg)).filter
        Event.isError).length = 1 ∧
    (generate_stream_response request fragments (.raisesAfter k msg)).getLast? =
      some (Event.error msg "internal_error") := by
  have hD : ∀ fs : List (List Char),
      (runFragments fs 0 initialState).1.filter Event.isDone = [] := by
    intro fs
    refine List.filter_eq_nil_iff.mpr ?_
    intro e he
    simp [stream_not_done (runFragments_stream fs 0 initialState e he)]
  have hE : ∀ fs : List (List Char),
      (runFragments fs 0 initialState).1.filter Event.isError = [] := by
    intro fs
    refine List.filter_eq_nil_iff.mpr ?_
    intro e he
    simp [stream_not_error (runFragments_stream fs 0 initialState e he)]
  refine ⟨?_, ?_, ?_, ?_, ?_⟩
  · simp [generate_stream_response, List.filter_append, hD, Event.isDone]
  · simp [generate_stream_response, List.filter_append, hE, Event.isError]
  · simp [generate_stream_response, List.filter_append, hD, Event.isDone]
  · simp [generate_stream_response, List.filter_append, hE, Event.isError]
  · simp only [generate_stream_response, ← List.cons_append, List.getLast?_concat]

/-- C7: once a close marker has been recognized (`has_found_code` true), every
further fragment is passed through as one verbatim token event, the state is
never changed again, and no further fence boundary event is ever emitted. -/
theorem single_fence_terminality (st : ScanState) (fragments : List (List Char))
    (index : Nat) (h : st.has_found_code = true) :
    (runFragments fragments index st).1 = verbatimTokens fragments index ∧
    (runFragments fragments index st).2 = st ∧
    ∀ e ∈ (runFragments fragments index st).1, e.isBoundary = false := by
  induction fragments generalizing index with
  | nil =>
      refine ⟨rfl, rfl, ?_⟩
      intro e he
      simp [runFragments] at he
  | cons f fs ih =>
      have hp : process_token f index st = ([Event.token f index], st) := by
        simp [process_token, h]
      obtain ⟨ih1, ih2, ih3⟩ := ih (index + 1)
      refine ⟨?_, ?_, ?_⟩
      · simp [runFragments, hp, ih1, verbatimTokens]
      · simp [runFragments, hp, ih2]
      · intro e he
        simp only [runFragments, hp, List.mem_append] at he
        rcases he with he | he
        · simp at he
          subst he
          rfl
        · exact ih3 e he

/-- Witness for `single_fence_terminality`: from a state whose close marker
has already been seen, two further fragments (one of them marker-like) come
back as two verbatim tokens. -/
theorem single_fence_terminality_witness :
    (runFragments [chars "x", chars "```\nte"] 5 (ScanState.mk [] false true)).1 =
      verbatimTokens [chars "x", chars "```\nte"] 5 :=
  (single_fence_terminality (ScanState.mk [] false true)
    [chars "x", chars "```\nte"] 5 rfl).1

/-- `_handle_buffer_content` never leaves both flags set when the close marker
had not been seen before the call. -/
theorem handle_flags (content : List Char) (index : Nat) (st : ScanState)
    (identifier : List Char) (n : Nat) (b : Bool)
    (h : st.has_found_code = false) :
    ((handle_buffer_content content index st identifier n b).2.code_block_open &&
      (handle_buffer_content content index st identifier n b).2.has_found_code)
      = false := by
  unfold handle_buffer_content
  split
  · simp [h]
  · split
    · split
      · simp [h]
      · simp
    · simp [h]

/-- `process_token` preserves the not-both-flags invariant. -/
theorem process_flags (tok : List Char) (index : Nat) (st : ScanState)
    (h : (st.code_block_open && st.has_found_code) = false) :
    ((process_token tok index st).2.code_block_open &&
      (process_token tok index st).2.has_found_code) = false := by
  unfold process_token
  split
  · exact h
  · next hnf =>
      have h0 : st.has_found_code = false := by simpa using hnf
      split
      · exact handle_flags _ _ _ _ _ _ h0
      · exact handle_flags _ _ _ _ _ _ h0

/-- The fragment loop preserves the not-both-flags invariant. -/
theorem runFragments_flags (fragments : List (List Char)) (index : Nat)
    (st : ScanState)
    (h : (st.code_block_open && st.has_found_code) = false) :
    ((runFragments fragments index st).2.code_block_open &&
      (runFragments fragments index st).2.has_found_code) = false := by
  induction fragments generalizing index st with
  | nil => exact h
  | cons f fs ih =>
      exact ih (index + 1) (process_token f index st).2 (process_flags f index st h)

/-- When the open-marker scan runs, `has_found_code` is unchanged. -/
theorem handle_start_found (content : List Char) (index : Nat) (st : ScanState)
    (identifier : List Char) (n : Nat) :
    (handle_buffer_content content index st identifier n true).2.has_found_code =
      st.has_found_code := by
  by_cases hlen : content.length < n
  · simp [handle_buffer_content, hlen]
  · cases hfind : strFind identifier content with
    | none => simp [handle_buffer_content, hlen, hfind]
    | some idx => simp [handle_buffer_content, hlen, hfind]

/-- When the close-marker scan sets `has_found_code`, it clears
`code_block_open` in the same step. -/
theorem handle_close_open (content : List Char) (index : Nat) (st : ScanState)
    (identifier : List Char) (n : Nat) (h0 : st.has_found_code = false)
    (h : (handle_buffer_content content index st identifier n false).2.has_found_code
          = true) :
    (handle_buffer_content content index st identifier n false).2.code_block_open
      = false := by
  by_cases hlen : content.length < n
  · simp [handle_buffer_content, hlen, h0] at h
  · cases hfind : strFind identifier content with
    | none => simp [handle_buffer_content, hlen, hfind, h0] at h
    | some idx => simp [handle_buffer_content, hlen, hfind]

/-- A single `process_token` step turns `has_found_code` on only when it also
turns `code_block_open` from true to false. -/
theorem process_found_transition (tok : List Char) (index : Nat) (st : ScanState)
    (h : (process_token tok index st).2.has_found_code = true) :
    st.has_found_code = true ∨
      (st.code_block_open = true ∧
        (process_token tok index st).2.code_block_open = false) := by
  by_cases h0 : st.has_found_code = true
  · exact Or.inl h0
  · have h0' : st.has_found_code = false := by simpa using h0
    by_cases h1 : st.code_block_open = true
    · refine Or.inr ⟨h1, ?_⟩
      simp only [process_token, h0', h1] at h ⊢
      simp only [Bool.false_eq_true, if_false, if_true] at h ⊢
      exact handle_close_open _ _ _ _ _ rfl h
    · exfalso
      have h1' : st.code_block_open = false := by simpa using h1
      simp only [process_token, h0', h1'] at h
      simp only [Bool.false_eq_true, if_false] at h
      rw [handle_start_found] at h
      simp [h0'] at h

/-- C8: in every state reachable from the initial scan state
`code_block_open` and `has_found_code` are never both true, and a step sets
`has_found_code` only while turning `code_block_open` from true to false. -/
theorem state_flag_invariant (fragments : List (List Char)) (index j : Nat)
    (tok : List Char) (st : ScanState)
    (h : (process_token tok j st).2.has_found_code = true) :
    (((runFragments fragments index initialState).2.code_block_open &&
        (runFragments fragments index initialState).2.has_found_code) = false) ∧
    (st.has_found_code = true ∨
      (st.code_block_open = true ∧
        (process_token tok j st).2.code_block_open = false)) :=
  ⟨runFragments_flags fragments index initialState rfl,
   process_found_transition tok j st h⟩

/-- Witness for `state_flag_invariant`: a run over one mixed fragment, and a
concrete close-marker step out of an open code block. -/
theorem state_flag_invariant_witness :
    (((runFragments [chars "a```python\nb"] 0 initialState).2.code_block_open &&
        (runFragments [chars "a```python\nb"] 0 initialState).2.has_found_code)
        = false) ∧
    ((ScanState.mk [] true false).has_found_code = true ∨
      ((ScanState.mk [] true false).code_block_open = true ∧
        (process_token (chars "```\nx") 0
          (ScanState.mk [] true false)).2.code_block_open = false)) :=
  state_flag_invariant [chars "a```python\nb"] 0 0 (chars "```\nx")
    (ScanState.mk [] true false) (by decide)

/-- Every `code_start` event `_handle_buffer_content` yields carries the
literal language tag "python". -/
theorem handle_code_start_lang (content : List Char) (index : Nat)
    (st : ScanState) (identifier : List Char) (n : Nat) (b : Bool)
    (lang : String)
    (h : Event.code_start lang ∈
        (handle_buffer_content content index st identifier n b).1) :
    lang = "python" := by
  unfold handle_buffer_content at h
  split at h
  · simp at h
  · split at h
    · split at h
      · simp at h
        exact h
      · simp at h
    · simp at h

/-- Every `code_start` event `process_token` yields carries "python". -/
theorem process_code_start_lang (tok : List Char) (index : Nat)
    (st : ScanState) (lang : String)
    (h : Event.code_start lang ∈ (process_token tok index st).1) :
    lang = "python" := by
  unfold process_token at h
  split at h
  · simp at h
  · split at h
    · exact handle_code_start_lang _ _ _ _ _ _ _ h
    · exact handle_code_start_lang _ _ _ _ _ _ _ h

/-- Every `code_start` event the fragment loop yields carries "python". -/
theorem runFragments_code_start_lang (fragments : List (List Char))
    (index : Nat) (st : ScanState) (lang : String)
    (h : Event.code_start lang ∈ (runFragments fragments index st).1) :
    lang = "python" := by
  induction fragments generalizing index st with
  | nil => simp [runFragments] at h
  | cons f fs ih =>
      simp only [runFragments, List.mem_append] at h
      rcases h with h | h
      · exact process_code_start_lang f index st lang h
      · exact ih _ _ h

/-- C9: two requests that differ only in the `language` field produce
identical event streams over the same upstream fragments, and every
`code_start` event carries the literal tag "python" regardless of the
requested language. -/
theorem language_noninterference (messages : List Message)
    (l1 l2 : Option String) (fragments : List (List Char))
    (outcome : StreamOutcome) :
    generate_stream_response { messages := messages, language := l1 }
        fragments outcome =
      generate_stream_response { messages := messages, language := l2 }
        fragments outcome ∧
    ∀ lang, Event.code_start lang ∈
        generate_stream_response { messages := messages, language := l1 }
          fragments outcome →
      lang = "python" := by
  refine ⟨by cases outcome <;> rfl, ?_⟩
  intro lang h
  cases outcome with
  | completes =>
      simp only [generate_stream_response] at h
      rcases List.mem_cons.mp h with h | h
      · exact Event.noConfusion h
      rcases List.mem_append.mp h with h | h
      · exact runFragments_code_start_lang _ _ _ _ h
      · exact Event.noConfusion (List.mem_singleton.mp h)
  | raisesAfter k msg =>
      simp only [generate_stream_response] at h
      rcases List.mem_cons.mp h with h | h
      · exact Event.noConfusion h
      rcases List.mem_append.mp h with h | h
      · exact runFragments_code_start_lang _ _ _ _ h
      · exact Event.noConfusion (List.mem_singleton.mp h)

/-- C10: whenever the active marker is found at offset 0 of the candidate
window, the scanner emits a token event with an empty payload immediately
before the boundary event. -/
theorem empty_token_at_marker (st : ScanState) (tok : List Char) (index : Nat)
    (h1 : st.has_found_code = false)
    (h2 : activeSize st ≤ (st.buffer ++ tok).length)
    (h3 : strFind (activeIdentifier st) (st.buffer ++ tok) = some 0) :
    (process_token tok index st).1 = [Event.token [] index, activeBoundary st] := by
  by_cases ho : st.code_block_open = true
  · have h2' : ¬ st.buffer.length + tok.length < CODE_END_IDENTIFIER_SIZE := by
      have := h2
      simp only [activeSize, ho, if_true, List.length_append] at this
      omega
    have h3' : strFind codeEndIdentifier (st.buffer ++ tok) = some 0 := by
      simpa [activeIdentifier, ho] using h3
    simp [process_token, h1, ho, handle_buffer_content, h2', h3', activeBoundary]
  · have ho' : st.code_block_open = false := by simpa using ho
    have h2' : ¬ st.buffer.length + tok.length < CODE_START_IDENTIFIER_SIZE := by
      have := h2
      simp only [activeSize, ho', Bool.false_eq_true, if_false,
        List.length_append] at this
      omega
    have h3' : strFind codeStartIdentifier (st.buffer ++ tok) = some 0 := by
      simpa [activeIdentifier, ho'] using h3
    simp [process_token, h1, ho', handle_buffer_content, h2', h3', activeBoundary]

/-- Witness for `empty_token_at_marker`: a fresh state and a fragment that is
exactly the open marker followed by one character. -/
theorem empty_token_at_marker_witness :
    (process_token (chars "```python\nx") 0 initialState).1 =
      [Event.token [] 0, activeBoundary initialState] :=
  empty_token_at_marker initialState (chars "```python\nx") 0 rfl
    (by decide) (by decide)

/-- C5 counterexample: a single fragment holding the open marker followed by
twelve characters leaves an 11-character lookback at rest between calls,
exceeding the claimed bound of 10. -/
theorem bounded_lookback_cex :
    (runFragments [chars "```python\nabcdefghijkl"] 0
        initialState).2.buffer.length = 11 ∧
    10 < (runFragments [chars "```python\nabcdefghijkl"] 0
        initialState).2.buffer.length := by
  decide

/-- After a scan call that yields no fence boundary, the lookback holds at
most `identifier_size - 1 ≤ 10` characters. -/
theorem handle_no_marker_bound (content : List Char) (index : Nat)
    (st : ScanState) (identifier : List Char) (n : Nat) (b : Bool)
    (hb : st.buffer = content) (hn : n ≤ 11)
    (h2 : (((handle_buffer_content content index st identifier n b).1).all
        fun e => !e.isBoundary) = true) :
    (handle_buffer_content content index st identifier n b).2.buffer.length
      ≤ 10 := by
  by_cases hlen : content.length < n
  · simp only [handle_buffer_content, hlen, if_true]
    rw [hb]
    omega
  · cases hfind : strFind identifier content with
    | some idx =>
        exfalso
        cases b
        · simp [handle_buffer_content, hlen, hfind, Event.isBoundary] at h2
        · simp [handle_buffer_content, hlen, hfind, Event.isBoundary] at h2
    | none =>
        simp only [handle_buffer_content, hlen, if_false, hfind,
          List.length_drop]
        omega

/-- C5 amended: the 10-character bound on the lookback holds after every
fragment-processing call in which the scan recognized no marker (and the
terminal fast path was not taken); a call that does recognize a marker
instead parks the entire unscanned remainder after the marker in the
lookback, which the bound does not cover. -/
theorem bounded_lookback_amended (st : ScanState) (tok : List Char)
    (index : Nat) (h1 : st.has_found_code = false)
    (h2 : ((process_token tok index st).1.all fun e => !e.isBoundary) = true) :
    (process_token tok index st).2.buffer.length ≤ 10 := by
  by_cases ho : st.code_block_open = true
  · have hp : process_token tok index st =
        handle_buffer_content (st.buffer ++ tok) index
          { st with buffer := st.buffer ++ tok }
          codeEndIdentifier CODE_END_IDENTIFIER_SIZE false := by
      simp [process_token, h1, ho]
    rw [hp] at h2 ⊢
    exact handle_no_marker_bound _ index _ codeEndIdentifier _ false rfl
      (by decide) h2
  · have ho' : st.code_block_open = false := by simpa using ho
    have hp : process_token tok index st =
        handle_buffer_content (st.buffer ++ tok) index
          { st with buffer := st.buffer ++ tok }
          codeStartIdentifier CODE_START_IDENTIFIER_SIZE true := by
      simp [process_token, h1, ho']
    rw [hp] at h2 ⊢
    exact handle_no_marker_bound _ index _ codeStartIdentifier _ true rfl
      (by decide) h2

/-- Witness for `bounded_lookback_amended`: a short fragment from the fresh
state emits nothing and leaves a 5-character lookback. -/
theorem bounded_lookback_amended_witness :
    (process_token (chars "hello") 0 initialState).2.buffer.length ≤ 10 :=
  bounded_lookback_amended initialState (chars "hello") 0 rfl (by decide)

/-- C3 counterexample: the open-marker literal has 10 characters, not 11, and
after the marker is found at offset 0 of the window "```python\nab" the
lookback is "b" rather than the remainder "ab" that follows the
10-character marker. -/
theorem open_marker_geometry_cex :
    codeStartIdentifier.length = 10 ∧
    (codeStartIdentifier.length == 11) = false ∧
    strFind codeStartIdentifier (chars "```python\nab") = some 0 ∧
    (process_token (chars "```python\nab") 0 initialState).2.buffer = chars "b" ∧
    ((chars "```python\nab").drop (0 + codeStartIdentifier.length)
        == chars "b") = false := by
  decide

/-- C3 amended: the recognized open marker is the 10-character literal of
three backticks, "python" and a newline; whenever it is found at offset `i`
of the candidate window `w` the scanner emits `code_start` after the plain
prefix and resets the lookback to `w.drop (i + 11)` — `CODE_START_IDENTIFIER_SIZE`
is 11, one more than the marker, so the character immediately after the
marker (when present) is dropped rather than carried forward. -/
theorem open_marker_geometry_amended (st : ScanState) (tok : List Char)
    (index idx : Nat)
    (h1 : st.has_found_code = false) (h2 : st.code_block_open = false)
    (h3 : CODE_START_IDENTIFIER_SIZE ≤ (st.buffer ++ tok).length)
    (h4 : strFind codeStartIdentifier (st.buffer ++ tok) = some idx) :
    codeStartIdentifier.length = 10 ∧
    (process_token tok index st).1 =
      [Event.token ((st.buffer ++ tok).take idx) index,
        Event.code_start "python"] ∧
    (process_token tok index st).2.buffer = (st.buffer ++ tok).drop (idx + 11) := by
  have h3' : ¬ st.buffer.length + tok.length < 11 := by
    have := h3
    simp only [CODE_START_IDENTIFIER_SIZE, List.length_append] at this
    omega
  refine ⟨by decide, ?_, ?_⟩ <;>
    simp [process_token, h1, h2, handle_buffer_content, h3', h4,
      CODE_START_IDENTIFIER_SIZE]

/-- Witness for `open_marker_geometry_amended` at the window "```python\nab":
the lookback becomes the window minus its first 11 characters, i.e. "b". -/
theorem open_marker_geometry_amended_witness :
    codeStartIdentifier.length = 10 ∧
    (process_token (chars "```python\nab") 0 initialState).1 =
      [Event.token ((initialState.buffer ++ chars "```python\nab").take 0) 0,
        Event.code_start "python"] ∧
    (process_token (chars "```python\nab") 0 initialState).2.buffer =
      (initialState.buffer ++ chars "```python\nab").drop (0 + 11) :=
  open_marker_geometry_amended initialState (chars "```python\nab") 0 0 rfl rfl
    (by decide) (by decide)

/-- C1 at the failing input: the single fragment "```python\nab" emits only
the empty token and the boundary — the "a" is skipped because the size
constant 11 exceeds the 10-character marker, and the "b" is parked in the
lookback, which is never flushed before `done`; no plain-text event ever
carries the stripped remainder "ab". -/
theorem completeness_failure_eval :
    generate_stream_response { messages := [], language := some "python" }
        [chars "```python\nab"] .completes =
      [Event.start, Event.token [] 0, Event.code_start "python",
        Event.done "stop"] ∧
    (runFragments [chars "```python\nab"] 0 initialState).2.buffer = chars "b" := by
  decide

/-- C2 at the failing inputs: every split of the exact 10-character string
"```python\n" into two non-empty fragments yields no `code_start` at all —
the scan only runs once the window reaches `CODE_START_IDENTIFIER_SIZE = 11`
characters, one more than the marker itself — and in particular the split
after "```pyth" produces just `start` and `done`. -/
theorem chunk_invariance_failure_eval :
    (((List.range 9).all fun k =>
      (generate_stream_response { messages := [], language := some "python" }
          [(chars "```python\n").take (k + 1), (chars "```python\n").drop (k + 1)]
          .completes).all fun e => !e.isCodeStart)) = true ∧
    generate_stream_response { messages := [], language := some "python" }
        [chars "```pyth", chars "on\n"] .completes =
      [Event.start, Event.done "stop"] := by
  decide

/-- C4 at the scenario input: the code emits token("Here is") and token(" ")
instead of token("Here is "), token("ode") instead of token("code") — the
"c" is dropped by the off-by-one size constant — and never emits
token("more"), which is left in the lookback when the stream ends. -/
theorem scenario_eval :
    generate_stream_response { messages := [], language := some "python" }
        [chars "Here is ```python", chars "\ncode", chars "```\nmore"]
        .completes =
      [Event.start, Event.token (chars "Here is") 0, Event.token (chars " ") 1,
        Event.code_start "python", Event.token (chars "ode") 2, Event.code_end,
        Event.done "stop"] ∧
    (runFragments [chars "Here is ```python", chars "\ncode", chars "```\nmore"]
        0 initialState).2.buffer = chars "more" := by
  decide

end ChatApi
